import Mathlib

/-!
Shallow embedding of the FinOps maturity-assessment scoring engine found in
the App.jsx variants of this repository: the questionnaire data model, the
capability / lens / overall scoring computations, the tier classifier, the
model-import validation and the answers export / import round trip, together
with theorems about them.
-/

namespace FinOps

/-- Grade labels in display order (LEVELS in the source). -/
def LEVELS : List String := ["Pre-crawl", "Crawl", "Walk", "Run", "Fly"]

/-- The five fixed lens categories (LENSES in the source). -/
def LENSES : List String := ["Knowledge", "Process", "Metrics", "Adoption", "Automation"]

/-- First-match association-list lookup; this is the JSON-object field access
used throughout the embedding. -/
def alookup {β : Type} : String → List (String × β) → Option β
  | _, [] => none
  | k, (k', v) :: rest => if k = k' then some v else alookup k rest

/-- One questionnaire question: prompt text, optional lens tag, option texts
and the grade-to-weight table (scores, weights 0..20 in the model files). -/
structure Question where
  text : String
  lens : Option String
  options : List (String × String)
  scores : List (String × ℚ)
deriving DecidableEq

/-- One capability: stable key, display name and its ordered questions. -/
structure Capability where
  key : String
  name : String
  questions : List Question
deriving DecidableEq

/-- A questionnaire model: the ordered capabilities. -/
structure Model where
  capabilities : List Capability
deriving DecidableEq

/-- Answer Store: capability key to question index to chosen grade label
(answersByCap in the source); unanswered questions are absent. -/
def AnswerStore : Type := String → ℕ → Option String

/-- Resolve a stored grade against a question's scores table. This is the
source condition lvl and typeof q.scores?.[lvl] === "number": a missing
answer, an empty (falsy) grade string, or a grade with no numeric entry in
scores resolves to none. -/
def qWeight (q : Question) (ans : Option String) : Option ℚ :=
  match ans with
  | none => none
  | some lvl => if lvl = "" then none else alookup lvl q.scores

/-- A question's contribution to the capability total: its resolved weight,
otherwise 0. -/
def qContribution (q : Question) (ans : Option String) : ℚ :=
  match qWeight q ans with
  | some w => w
  | none => 0

/-- A question counts as answered for lens normalization exactly when its
grade resolves to a numeric weight. -/
def isAnswered (q : Question) (ans : Option String) : Bool :=
  (qWeight q ans).isSome

/-- The sum20 accumulation of the report / computeCapMetrics loop, walking
the questions of a capability with key k from index n upward. -/
def sumFrom (k : String) (st : AnswerStore) : List Question → ℕ → ℚ
  | [], _ => 0
  | q :: qs, n => qContribution q (st k n) + sumFrom k st qs (n + 1)

/-- capabilityTotal20: sum of the contributions of the capability's
questions. -/
def capSum20 (cap : Capability) (st : AnswerStore) : ℚ :=
  sumFrom cap.key st cap.questions 0

/-- capabilityMax20 with the Math.max(1, questions.length * 20) guard of the
V1.3 report computation. -/
def capMax20 (cap : Capability) : ℚ :=
  max 1 ((cap.questions.length : ℚ) * 20)

/-- capScore100 of the V1.3 report: (sum20 / max20) * 100. -/
def capScore100 (cap : Capability) (st : AnswerStore) : ℚ :=
  capSum20 cap st / capMax20 cap * 100

/-- max20 of computeCapMetrics (the Setup-Assessment-Report variants):
20 * questions.length, without the max(1, _) guard. -/
def metricsMax20 (cap : Capability) : ℚ :=
  20 * (cap.questions.length : ℚ)

/-- capScore100 of computeCapMetrics: max20 ? (sum20 / max20) * 100 : 0. -/
def metricsCapScore100 (cap : Capability) (st : AnswerStore) : ℚ :=
  if metricsMax20 cap = 0 then 0 else capSum20 cap st / metricsMax20 cap * 100

/-- The lens sum accumulation of the scoring loops: answered questions
carrying lens l add their resolved weight. -/
def lensSumFrom (k : String) (st : AnswerStore) (l : String) : List Question → ℕ → ℚ
  | [], _ => 0
  | q :: qs, n =>
    (if q.lens = some l then qContribution q (st k n) else 0) + lensSumFrom k st l qs (n + 1)

/-- The lens answered-count accumulation of the scoring loops: answered
questions carrying lens l count 1. -/
def lensAnsFrom (k : String) (st : AnswerStore) (l : String) : List Question → ℕ → ℕ
  | [], _ => 0
  | q :: qs, n =>
    (if q.lens = some l ∧ isAnswered q (st k n) then 1 else 0) + lensAnsFrom k st l qs (n + 1)

/-- lensTotals[l].sum of a capability. -/
def lensSum (cap : Capability) (st : AnswerStore) (l : String) : ℚ :=
  lensSumFrom cap.key st l cap.questions 0

/-- lensTotals[l].answered of a capability. -/
def lensAnswered (cap : Capability) (st : AnswerStore) (l : String) : ℕ :=
  lensAnsFrom cap.key st l cap.questions 0

/-- lensTotals[l].total of computeCapMetrics: the number of questions of the
capability carrying lens l, answered or not. -/
def lensTotal (cap : Capability) (l : String) : ℕ :=
  cap.questions.countP (fun q => decide (q.lens = some l))

/-- Per-lens display value of computeCapMetrics (radarData and lensView):
denominator is lt.total * 20 || 1, i.e. the total number of questions of the
lens, with 1 substituted when the lens has no questions. -/
def radarValue (cap : Capability) (st : AnswerStore) (l : String) : ℚ :=
  let denom : ℚ := if (lensTotal cap l : ℚ) * 20 = 0 then 1 else (lensTotal cap l : ℚ) * 20
  lensSum cap st l / denom * 100

/-- selectedCapsSafe: the selection, or all of the model's capability keys
when the selection is empty. -/
def selectedCapsSafe (m : Model) (sel : List String) : List String :=
  if sel.isEmpty then m.capabilities.map (fun c => c.key) else sel

/-- The in-scope capabilities: the model's capabilities whose key is in
selectedCapsSafe (the filter applied by the report computation, identical to
selectedList of the Setup-Assessment-Report variants). -/
def inScopeCaps (m : Model) (sel : List String) : List Capability :=
  m.capabilities.filter (fun c => decide (c.key ∈ selectedCapsSafe m sel))

/-- overallAvgCapScore100: mean of capScore100 across the in-scope
capabilities, 0 when none are in scope. -/
def overallScore100 (m : Model) (sel : List String) (st : AnswerStore) : ℚ :=
  if (inScopeCaps m sel).isEmpty then 0
  else ((inScopeCaps m sel).map (fun c => capScore100 c st)).sum
        / ((inScopeCaps m sel).length : ℚ)

/-- One point of the V1.3 spiderData projection: capability name, raw total
and fullMark. -/
structure SpiderPoint where
  subject : String
  total : ℚ
  fullMark : ℚ
deriving DecidableEq

/-- spiderData of the V1.3 variants: subject = name, total = sum20 (the raw
total, not the percentage), fullMark = max20, per in-scope capability. -/
def spiderData (m : Model) (sel : List String) (st : AnswerStore) : List SpiderPoint :=
  (inScopeCaps m sel).map
    (fun c => { subject := c.name, total := capSum20 c st, fullMark := capMax20 c })

/-- One point of the overall spider of the Setup-Assessment-Report variants:
capability name and plotted value. -/
structure OverallSpiderPoint where
  capability : String
  value : ℚ
deriving DecidableEq

/-- overallSpiderData of the Setup-Assessment-Report variants: the plotted
value is computeCapMetrics capScore100, a 0-100 percentage (the source's
|| 0 fallback only replaces a falsy number by 0 and is the identity here). -/
def overallSpiderData (m : Model) (sel : List String) (st : AnswerStore) : List OverallSpiderPoint :=
  (inScopeCaps m sel).map
    (fun c => { capability := c.name, value := metricsCapScore100 c st })

/-- lensAgg sum accumulation across the in-scope capabilities (the forEach
over capTotals in the V1.3 variants). -/
def aggLensSum (m : Model) (sel : List String) (st : AnswerStore) (l : String) : ℚ :=
  (inScopeCaps m sel).foldl (fun acc c => acc + lensSum c st l) 0

/-- lensAgg answered-count accumulation across the in-scope capabilities. -/
def aggLensAnswered (m : Model) (sel : List String) (st : AnswerStore) (l : String) : ℕ :=
  (inScopeCaps m sel).foldl (fun acc c => acc + lensAnswered c st l) 0

/-- lensAgg max20 accumulation of the V1.3 lens bars: each capability adds
its answered count times 20. -/
def aggLensMax20 (m : Model) (sel : List String) (st : AnswerStore) (l : String) : ℚ :=
  (inScopeCaps m sel).foldl (fun acc c => acc + (lensAnswered c st l : ℚ) * 20) 0

/-- lensOverview value of the V1.3 admin-tab variant:
a.answered ? (a.sum / (a.answered * 20)) * 100 : 0. -/
def lensOverviewValue (m : Model) (sel : List String) (st : AnswerStore) (l : String) : ℚ :=
  if aggLensAnswered m sel st l = 0 then 0
  else aggLensSum m sel st l / ((aggLensAnswered m sel st l : ℚ) * 20) * 100

/-- JavaScript Math.round on the nonnegative values produced here:
floor of x + 1/2. -/
def jsRound (x : ℚ) : ℤ := ⌊x + 1 / 2⌋

/-- lensBars value100 of the V1.3 variant: the rounded percentage over the
answered-based max, 0 when that max is 0. -/
def lensBarsValue (m : Model) (sel : List String) (st : AnswerStore) (l : String) : ℚ :=
  if aggLensMax20 m sel st l = 0 then 0
  else (jsRound (aggLensSum m sel st l / aggLensMax20 m sel st l * 100) : ℚ)

/-- The contribution of the question at index j, when the walk starts at
index i: a closed pointwise description of the sum20 loop. -/
def contribAt (k : String) (st : AnswerStore) (qs : List Question) (i j : ℕ) : ℚ :=
  match qs.get? j with
  | some q => qContribution q (st k (i + j))
  | none => 0

lemma sumFrom_eq_sum (k : String) (st : AnswerStore) :
    ∀ (qs : List Question) (i : ℕ),
      sumFrom k st qs i = ∑ j ∈ Finset.range qs.length, contribAt k st qs i j := by
  intro qs
  induction qs with
  | nil => intro i; simp [sumFrom, contribAt]
  | cons q rest ih =>
    intro i
    have hstep : ∀ j, contribAt k st (q :: rest) i (j + 1) = contribAt k st rest (i + 1) j := by
      intro j
      unfold contribAt
      have harg : i + (j + 1) = (i + 1) + j := by omega
      rw [harg, List.get?_cons_succ]
    have hsum := Finset.sum_range_succ' (fun j => contribAt k st (q :: rest) i j) rest.length
    calc sumFrom k st (q :: rest) i
        = qContribution q (st k i) + sumFrom k st rest (i + 1) := rfl
      _ = qContribution q (st k i)
            + ∑ j ∈ Finset.range rest.length, contribAt k st rest (i + 1) j := by rw [ih]
      _ = (∑ j ∈ Finset.range rest.length, contribAt k st (q :: rest) i (j + 1))
            + contribAt k st (q :: rest) i 0 := by
            simp only [hstep]
            rw [add_comm]
            congr 1
      _ = ∑ j ∈ Finset.range (q :: rest).length, contribAt k st (q :: rest) i j := by
            rw [List.length_cons, hsum]

/-- The lens-sum contribution of the question at index j, when the walk
starts at index i. -/
def lensContribAt (k : String) (st : AnswerStore) (l : String)
    (qs : List Question) (i j : ℕ) : ℚ :=
  match qs.get? j with
  | some q => if q.lens = some l then qContribution q (st k (i + j)) else 0
  | none => 0

/-- The lens answered-count contribution of the question at index j, when
the walk starts at index i. -/
def lensAnsAt (k : String) (st : AnswerStore) (l : String)
    (qs : List Question) (i j : ℕ) : ℕ :=
  match qs.get? j with
  | some q => if q.lens = some l ∧ isAnswered q (st k (i + j)) then 1 else 0
  | none => 0

lemma lensSumFrom_eq_sum (k : String) (st : AnswerStore) (l : String) :
    ∀ (qs : List Question) (i : ℕ),
      lensSumFrom k st l qs i = ∑ j ∈ Finset.range qs.length, lensContribAt k st l qs i j := by
  intro qs
  induction qs with
  | nil => intro i; simp [lensSumFrom, lensContribAt]
  | cons q rest ih =>
    intro i
    have hstep : ∀ j, lensContribAt k st l (q :: rest) i (j + 1)
        = lensContribAt k st l rest (i + 1) j := by
      intro j
      unfold lensContribAt
      have harg : i + (j + 1) = (i + 1) + j := by omega
      rw [harg, List.get?_cons_succ]
    have hsum := Finset.sum_range_succ' (fun j => lensContribAt k st l (q :: rest) i j) rest.length
    calc lensSumFrom k st l (q :: rest) i
        = (if q.lens = some l then qContribution q (st k i) else 0)
            + lensSumFrom k st l rest (i + 1) := rfl
      _ = (if q.lens = some l then qContribution q (st k i) else 0)
            + ∑ j ∈ Finset.range rest.length, lensContribAt k st l rest (i + 1) j := by rw [ih]
      _ = (∑ j ∈ Finset.range rest.length, lensContribAt k st l (q :: rest) i (j + 1))
            + lensContribAt k st l (q :: rest) i 0 := by
            simp only [hstep]
            rw [add_comm]
            congr 1
      _ = ∑ j ∈ Finset.range (q :: rest).length, lensContribAt k st l (q :: rest) i j := by
            rw [List.length_cons, hsum]

lemma lensAnsFrom_eq_sum (k : String) (st : AnswerStore) (l : String) :
    ∀ (qs : List Question) (i : ℕ),
      lensAnsFrom k st l qs i = ∑ j ∈ Finset.range qs.length, lensAnsAt k st l qs i j := by
  intro qs
  induction qs with
  | nil => intro i; simp [lensAnsFrom, lensAnsAt]
  | cons q rest ih =>
    intro i
    have hstep : ∀ j, lensAnsAt k st l (q :: rest) i (j + 1)
        = lensAnsAt k st l rest (i + 1) j := by
      intro j
      unfold lensAnsAt
      have harg : i + (j + 1) = (i + 1) + j := by omega
      rw [harg, List.get?_cons_succ]
    have hsum := Finset.sum_range_succ' (fun j => lensAnsAt k st l (q :: rest) i j) rest.length
    calc lensAnsFrom k st l (q :: rest) i
        = (if q.lens = some l ∧ isAnswered q (st k i) then 1 else 0)
            + lensAnsFrom k st l rest (i + 1) := rfl
      _ = (if q.lens = some l ∧ isAnswered q (st k i) then 1 else 0)
            + ∑ j ∈ Finset.range rest.length, lensAnsAt k st l rest (i + 1) j := by rw [ih]
      _ = (∑ j ∈ Finset.range rest.length, lensAnsAt k st l (q :: rest) i (j + 1))
            + lensAnsAt k st l (q :: rest) i 0 := by
            simp only [hstep]
            rw [add_comm]
            congr 1
      _ = ∑ j ∈ Finset.range (q :: rest).length, lensAnsAt k st l (q :: rest) i j := by
            rw [List.length_cons, hsum]

lemma foldl_add_eq_sum {M : Type} [AddCommMonoid M] (f : Capability → M) :
    ∀ (l : List Capability) (a : M),
      l.foldl (fun acc c => acc + f c) a = a + (l.map f).sum := by
  intro l
  induction l with
  | nil => intro a; simp
  | cons c rest ih =>
    intro a
    simp only [List.foldl_cons, List.map_cons, List.sum_cons, ih]
    rw [add_assoc]

lemma sum_map_cast_mul20 (f : Capability → ℕ) :
    ∀ l : List Capability,
      (l.map (fun c => (f c : ℚ) * 20)).sum = (((l.map f).sum : ℕ) : ℚ) * 20 := by
  intro l
  induction l with
  | nil => simp
  | cons c rest ih =>
    simp only [List.map_cons, List.sum_cons, ih]
    push_cast
    ring

/-- Claim C9: a lens with zero answered questions among the in-scope
capabilities gets aggregate percentage exactly 0, in both the lensOverview
and the lensBars projections: the 0/0 case is guarded. -/
theorem C9_lens_zero_answered (m : Model) (sel : List String) (st : AnswerStore) (l : String)
    (h : aggLensAnswered m sel st l = 0) :
    lensOverviewValue m sel st l = 0 ∧ lensBarsValue m sel st l = 0 := by
  have hA : ((inScopeCaps m sel).map (fun c => lensAnswered c st l)).sum = 0 := by
    have hfold := foldl_add_eq_sum (fun c => lensAnswered c st l) (inScopeCaps m sel) 0
    unfold aggLensAnswered at h
    rw [hfold] at h
    simpa using h
  constructor
  · unfold lensOverviewValue
    rw [if_pos h]
  · have hmax : aggLensMax20 m sel st l = 0 := by
      unfold aggLensMax20
      rw [foldl_add_eq_sum (fun c => (lensAnswered c st l : ℚ) * 20) (inScopeCaps m sel) 0]
      rw [zero_add, sum_map_cast_mul20, hA]
      norm_num
    unfold lensBarsValue
    rw [if_pos hmax]

/-- Concrete fixture: a question with lens Knowledge and the single weight
entry Run. -/
def qLens1 : Question :=
  { text := "k1", lens := some "Knowledge", options := [], scores := [("Run", 20)] }

/-- Concrete fixture: a second Knowledge question with the same weights. -/
def qLens2 : Question :=
  { text := "k2", lens := some "Knowledge", options := [], scores := [("Run", 20)] }

/-- Concrete fixture: a capability with two Knowledge questions. -/
def capLens : Capability :=
  { key := "L", name := "LensCap", questions := [qLens1, qLens2] }

/-- Concrete fixture: a model holding only capLens. -/
def mLens : Model := { capabilities := [capLens] }

/-- Concrete fixture: only the first Knowledge question is answered, with
grade Run of weight 20. -/
def stLens : AnswerStore := fun k n =>
  if k = "L" ∧ n = 0 then some "Run" else none

/-- Witness for C9 at a concrete input: the Process lens has no answered
questions, so both aggregate projections give 0. -/
theorem C9_lens_zero_answered_witness :
    lensOverviewValue mLens [] stLens "Process" = 0
    ∧ lensBarsValue mLens [] stLens "Process" = 0 :=
  C9_lens_zero_answered mLens [] stLens "Process" (by decide)

/-- The five ordered maturity tiers. -/
inductive Tier
  | precrawl
  | crawl
  | walk
  | run
  | fly
deriving DecidableEq

/-- maturityFromScore: the tier classifier over the overall 0-100 score. -/
def maturityFromScore (avg100 : ℚ) : Tier :=
  if avg100 < 10 then Tier.precrawl
  else if avg100 < 30 then Tier.crawl
  else if avg100 < 55 then Tier.walk
  else if avg100 < 80 then Tier.run
  else Tier.fly

/-- Concrete fixture: a scored question with the standard weight table. -/
def qAlloc1 : Question :=
  { text := "How are shared costs allocated?"
    lens := some "Process"
    options := []
    scores := [("Pre-crawl", 0), ("Crawl", 5), ("Walk", 10), ("Run", 15), ("Fly", 20)] }

/-- Concrete fixture: a second scored question. -/
def qAlloc2 : Question :=
  { text := "Is allocation automated?"
    lens := some "Automation"
    options := []
    scores := [("Pre-crawl", 0), ("Crawl", 5), ("Walk", 10), ("Run", 15), ("Fly", 20)] }

/-- Concrete fixture: the Allocation capability of the spec's worked
scenario, with two questions. -/
def capAlloc : Capability :=
  { key := "allocation", name := "Allocation", questions := [qAlloc1, qAlloc2] }

/-- Concrete fixture: a capability with zero questions. -/
def capEmpty : Capability :=
  { key := "empty", name := "Empty", questions := [] }

/-- Concrete fixture: the empty Answer Store. -/
def stNone : AnswerStore := fun _ _ => none

/-- Concrete fixture: Allocation answered Run on question 0 and Fly on
question 1. -/
def stAlloc : AnswerStore := fun k n =>
  if k = "allocation" then
    (if n = 0 then some "Run" else if n = 1 then some "Fly" else none)
  else none

/-- Claim C2: for every capability, capabilityScore100 equals the sum of the
per-question contributions divided by max(1, questionCount * 20), times 100;
the denominator is positive (never a division by zero); a zero-question
capability scores exactly 0; and a question whose stored grade does not
resolve to a number in its scores table contributes 0. -/
theorem C2_capability_score_formula (cap : Capability) (st : AnswerStore) :
    capScore100 cap st
      = (∑ j ∈ Finset.range cap.questions.length, contribAt cap.key st cap.questions 0 j)
          / max 1 ((cap.questions.length : ℚ) * 20) * 100
    ∧ 0 < capMax20 cap
    ∧ (cap.questions.length = 0 → capScore100 cap st = 0)
    ∧ (∀ j q, cap.questions.get? j = some q → qWeight q (st cap.key j) = none →
        contribAt cap.key st cap.questions 0 j = 0) := by
  refine ⟨?_, ?_, ?_, ?_⟩
  · unfold capScore100 capSum20 capMax20
    rw [sumFrom_eq_sum]
  · unfold capMax20
    have : (1 : ℚ) ≤ max 1 ((cap.questions.length : ℚ) * 20) := le_max_left _ _
    linarith
  · intro h
    unfold capScore100 capSum20 capMax20
    rw [h]
    cases hq : cap.questions with
    | nil => simp [sumFrom]
    | cons q rest => rw [hq] at h; simp at h
  · intro j q hq hw
    unfold contribAt
    rw [hq]
    have h0 : 0 + j = j := by omega
    rw [h0]
    show qContribution q (st cap.key j) = 0
    unfold qContribution
    rw [hw]

/-- Witness for C2 at concrete inputs: a zero-question capability scores 0,
the spec's Allocation scenario (answers Run and Fly) scores 87.5, and an
unresolved grade contributes 0. -/
theorem C2_capability_score_formula_witness :
    capScore100 capEmpty stNone = 0
    ∧ capScore100 capAlloc stAlloc = 175 / 2
    ∧ contribAt capAlloc.key stNone capAlloc.questions 0 0 = 0 :=
  ⟨(C2_capability_score_formula capEmpty stNone).2.2.1 rfl,
   by
     simp [capScore100, capSum20, capMax20, sumFrom, qContribution, qWeight,
       alookup, capAlloc, qAlloc1, qAlloc2, stAlloc]
     norm_num,
   (C2_capability_score_formula capAlloc stNone).2.2.2 0 qAlloc1 rfl rfl⟩

/-- Claim C3: the in-scope set is the model's capabilities restricted to the
selected keys, or all capabilities when the selection is empty; and
overallScore100 is the unweighted mean of capScore100 over the in-scope
capabilities, 0 when none are in scope. -/
theorem C3_overall_unweighted_mean (m : Model) (sel : List String) (st : AnswerStore) :
    (sel = [] → inScopeCaps m sel = m.capabilities)
    ∧ (sel ≠ [] →
        inScopeCaps m sel = m.capabilities.filter (fun c => decide (c.key ∈ sel)))
    ∧ (inScopeCaps m sel = [] → overallScore100 m sel st = 0)
    ∧ (inScopeCaps m sel ≠ [] →
        overallScore100 m sel st
          = ((inScopeCaps m sel).map (fun c => capScore100 c st)).sum
              / ((inScopeCaps m sel).length : ℚ)) := by
  refine ⟨?_, ?_, ?_, ?_⟩
  · intro h
    subst h
    unfold inScopeCaps selectedCapsSafe
    simp only [List.isEmpty_nil, if_true]
    rw [List.filter_eq_self]
    intro c hc
    simp only [decide_eq_true_eq]
    exact List.mem_map_of_mem (fun c => c.key) hc
  · intro h
    unfold inScopeCaps selectedCapsSafe
    have : sel.isEmpty = false := by
      cases sel with
      | nil => exact absurd rfl h
      | cons a l => rfl
    rw [this]
    simp
  · intro h
    unfold overallScore100
    rw [h]
    rfl
  · intro h
    have hf : (inScopeCaps m sel).isEmpty = false := by
      cases hc : inScopeCaps m sel with
      | nil => exact absurd hc h
      | cons a l => rfl
    unfold overallScore100
    rw [hf]
    simp

/-- Concrete fixture: a model pairing a zero-question capability with the
Allocation capability, for the unweighted-mean scenario. -/
def mZeroAlloc : Model := { capabilities := [capEmpty, capAlloc] }

/-- Concrete fixture: Allocation answered Walk (weight 10) on both
questions, i.e. a 50 percent capability. -/
def stWalk : AnswerStore := fun k _ =>
  if k = "allocation" then some "Walk" else none

/-- Witness for C3 at concrete inputs: with a zero-question capability and a
50 percent capability both in scope, the overall score is the unweighted mean
25; and an empty selection puts all capabilities in scope. -/
theorem C3_overall_unweighted_mean_witness :
    inScopeCaps mZeroAlloc [] = mZeroAlloc.capabilities
    ∧ overallScore100 mZeroAlloc [] stWalk = 25 := by
  have h := C3_overall_unweighted_mean mZeroAlloc [] stWalk
  refine ⟨h.1 rfl, ?_⟩
  rw [h.2.2.2 (by decide)]
  simp [inScopeCaps, selectedCapsSafe, mZeroAlloc, capEmpty, capAlloc,
    capScore100, capSum20, capMax20, sumFrom, qContribution, qWeight, alookup,
    qAlloc1, qAlloc2, stWalk]
  norm_num

/-- Claim C4: the tier classifier is a total function on every rational
input: Pre-crawl below 10 (which covers [0,10) and also every negative
input, so corrupted inputs are classified rather than rejected), Crawl on
[10,30), Walk on [30,55), Run on [55,80), and Fly from 80 upward (which
covers [80,100] and every value above 100). -/
theorem C4_tier_classifier_total (x : ℚ) :
    (x < 10 → maturityFromScore x = Tier.precrawl)
    ∧ (10 ≤ x → x < 30 → maturityFromScore x = Tier.crawl)
    ∧ (30 ≤ x → x < 55 → maturityFromScore x = Tier.walk)
    ∧ (55 ≤ x → x < 80 → maturityFromScore x = Tier.run)
    ∧ (80 ≤ x → maturityFromScore x = Tier.fly) := by
  unfold maturityFromScore
  refine ⟨?_, ?_, ?_, ?_, ?_⟩
  · intro h
    rw [if_pos h]
  · intro h1 h2
    rw [if_neg (by linarith), if_pos h2]
  · intro h1 h2
    rw [if_neg (by linarith), if_neg (by linarith), if_pos h2]
  · intro h1 h2
    rw [if_neg (by linarith), if_neg (by linarith), if_neg (by linarith), if_pos h2]
  · intro h1
    rw [if_neg (by linarith), if_neg (by linarith), if_neg (by linarith),
        if_neg (by linarith)]

/-- Witness for C4 at concrete inputs, including an out-of-range negative
score and a score above 100. -/
theorem C4_tier_classifier_total_witness :
    maturityFromScore (-5) = Tier.precrawl
    ∧ maturityFromScore 42 = Tier.walk
    ∧ maturityFromScore 120 = Tier.fly :=
  ⟨(C4_tier_classifier_total (-5)).1 (by norm_num),
   (C4_tier_classifier_total 42).2.2.1 (by norm_num) (by norm_num),
   (C4_tier_classifier_total 120).2.2.2.2 (by norm_num)⟩

/-- Counterexample to claim C1 as stated: in the per-capability lens view of
computeCapMetrics, a capability with two Knowledge questions of which only
one is answered at weight 20 displays 50 for Knowledge, not the
answered-only value 100 — an unanswered question of a lens does lower that
lens's displayed percentage there. -/
theorem C1_lens_percentage_counterexample :
    lensAnswered capLens stLens "Knowledge" = 1
    ∧ lensSum capLens stLens "Knowledge" = 20
    ∧ radarValue capLens stLens "Knowledge" = 50
    ∧ lensSum capLens stLens "Knowledge"
        / ((lensAnswered capLens stLens "Knowledge" : ℚ) * 20) * 100 = 100
    ∧ radarValue capLens stLens "Knowledge"
        ≠ lensSum capLens stLens "Knowledge"
            / ((lensAnswered capLens stLens "Knowledge" : ℚ) * 20) * 100 := by
  have hAns : lensAnswered capLens stLens "Knowledge" = 1 := by decide
  have hTot : lensTotal capLens "Knowledge" = 2 := by decide
  have hSum : lensSum capLens stLens "Knowledge" = 20 := by
    simp [lensSum, lensSumFrom, qContribution, qWeight, alookup,
      capLens, qLens1, qLens2, stLens]
  have hRadar : radarValue capLens stLens "Knowledge" = 50 := by
    unfold radarValue
    rw [hTot, hSum]
    norm_num
  have hClaim : lensSum capLens stLens "Knowledge"
      / ((lensAnswered capLens stLens "Knowledge" : ℚ) * 20) * 100 = 100 := by
    rw [hSum, hAns]
    norm_num
  exact ⟨hAns, hSum, hRadar, hClaim, by rw [hRadar, hClaim]; norm_num⟩

/-- Claim C1 amended: the cross-capability lens overview does use
answered-only normalization (combined lens sum over combined answered count
times 20, times 100; the V1.3 lens bars additionally round), but the
per-capability lens view of computeCapMetrics normalizes against the total
number of questions of the lens, answered or not. The loop accumulators are
characterized by closed index-wise sums. -/
theorem C1_lens_normalization_amended (m : Model) (sel : List String) (st : AnswerStore)
    (cap : Capability) (l : String) :
    lensSum cap st l
        = ∑ j ∈ Finset.range cap.questions.length, lensContribAt cap.key st l cap.questions 0 j
    ∧ lensAnswered cap st l
        = ∑ j ∈ Finset.range cap.questions.length, lensAnsAt cap.key st l cap.questions 0 j
    ∧ lensTotal cap l = (cap.questions.filter (fun q => decide (q.lens = some l))).length
    ∧ (lensTotal cap l ≠ 0 →
        radarValue cap st l = lensSum cap st l / ((lensTotal cap l : ℚ) * 20) * 100)
    ∧ aggLensSum m sel st l = ((inScopeCaps m sel).map (fun c => lensSum c st l)).sum
    ∧ aggLensAnswered m sel st l
        = ((inScopeCaps m sel).map (fun c => lensAnswered c st l)).sum
    ∧ aggLensMax20 m sel st l = (aggLensAnswered m sel st l : ℚ) * 20
    ∧ (aggLensAnswered m sel st l ≠ 0 →
        lensOverviewValue m sel st l
          = aggLensSum m sel st l / ((aggLensAnswered m sel st l : ℚ) * 20) * 100)
    ∧ (aggLensAnswered m sel st l ≠ 0 →
        lensBarsValue m sel st l
          = (jsRound (aggLensSum m sel st l
              / ((aggLensAnswered m sel st l : ℚ) * 20) * 100) : ℚ)) := by
  have hmax : aggLensMax20 m sel st l = (aggLensAnswered m sel st l : ℚ) * 20 := by
    unfold aggLensMax20 aggLensAnswered
    rw [foldl_add_eq_sum (fun c => (lensAnswered c st l : ℚ) * 20) (inScopeCaps m sel) 0]
    rw [foldl_add_eq_sum (fun c => lensAnswered c st l) (inScopeCaps m sel) 0]
    rw [zero_add, zero_add, sum_map_cast_mul20]
  refine ⟨?_, ?_, ?_, ?_, ?_, ?_, hmax, ?_, ?_⟩
  · unfold lensSum
    rw [lensSumFrom_eq_sum]
  · unfold lensAnswered
    rw [lensAnsFrom_eq_sum]
  · unfold lensTotal
    rw [List.countP_eq_length_filter]
  · intro h
    unfold radarValue
    rw [if_neg]
    intro hc
    have h20 : (lensTotal cap l : ℚ) = 0 := by
      have : (20 : ℚ) ≠ 0 := by norm_num
      exact (mul_eq_zero.mp hc).resolve_right this
    exact h (Nat.cast_eq_zero.mp h20)
  · unfold aggLensSum
    rw [foldl_add_eq_sum (fun c => lensSum c st l) (inScopeCaps m sel) 0, zero_add]
  · unfold aggLensAnswered
    rw [foldl_add_eq_sum (fun c => lensAnswered c st l) (inScopeCaps m sel) 0, zero_add]
  · intro h
    unfold lensOverviewValue
    rw [if_neg h]
  · intro h
    have hne20 : (aggLensAnswered m sel st l : ℚ) * 20 ≠ 0 := by
      intro hc
      have h20 : (aggLensAnswered m sel st l : ℚ) = 0 := by
        have h20' : (20 : ℚ) ≠ 0 := by norm_num
        exact (mul_eq_zero.mp hc).resolve_right h20'
      exact h (Nat.cast_eq_zero.mp h20)
    unfold lensBarsValue
    rw [hmax, if_neg hne20]

/-- Witness for C1 amended at a concrete input: one of two Knowledge
questions answered at weight 20 gives per-capability lens value 50
(total-based) and aggregate overview value 100 (answered-based), with the
rounded lens bar also at 100. -/
theorem C1_lens_normalization_amended_witness :
    radarValue capLens stLens "Knowledge" = 50
    ∧ lensOverviewValue mLens [] stLens "Knowledge" = 100
    ∧ lensBarsValue mLens [] stLens "Knowledge" = 100 := by
  have h := C1_lens_normalization_amended mLens [] stLens capLens "Knowledge"
  have hAgg : aggLensSum mLens [] stLens "Knowledge" = 20 := by
    rw [h.2.2.2.2.1]
    simp [inScopeCaps, selectedCapsSafe, mLens, capLens, lensSum, lensSumFrom,
      qContribution, qWeight, alookup, qLens1, qLens2, stLens]
  have hAns : aggLensAnswered mLens [] stLens "Knowledge" = 1 := by decide
  have hne : aggLensAnswered mLens [] stLens "Knowledge" ≠ 0 := by decide
  refine ⟨?_, ?_, ?_⟩
  · rw [h.2.2.2.1 (by decide)]
    have hTot : lensTotal capLens "Knowledge" = 2 := by decide
    have hSum : lensSum capLens stLens "Knowledge" = 20 := by
      simp [lensSum, lensSumFrom, qContribution, qWeight, alookup,
        capLens, qLens1, qLens2, stLens]
    rw [hTot, hSum]
    norm_num
  · rw [h.2.2.2.2.2.2.2.1 hne, hAgg, hAns]
    norm_num
  · rw [h.2.2.2.2.2.2.2.2 hne, hAgg, hAns]
    norm_num [jsRound]

/-- Concrete fixture: a model holding only the Allocation capability. -/
def mAlloc : Model := { capabilities := [capAlloc] }

/-- Concrete fixture: only Allocation question 0 answered with Run
(weight 15). -/
def stRun : AnswerStore := fun k n =>
  if k = "allocation" ∧ n = 0 then some "Run" else none

/-- Counterexample to claim C8 as stated: the overall spider projection of
the Setup-Assessment-Report variants plots the percentage capScore100
(here 37.5 on a fixed 0-100 axis, with no fullMark field), not the raw
capability total (here 15). -/
theorem C8_spider_counterexample :
    overallSpiderData mAlloc [] stRun
        = [{ capability := "Allocation", value := 75 / 2 }]
    ∧ capSum20 capAlloc stRun = 15
    ∧ (75 / 2 : ℚ) ≠ 15 := by
  have hsum : capSum20 capAlloc stRun = 15 := by
    simp [capSum20, sumFrom, qContribution, qWeight, alookup,
      capAlloc, qAlloc1, qAlloc2, stRun]
  refine ⟨?_, hsum, by norm_num⟩
  have hscope : inScopeCaps mAlloc [] = [capAlloc] := by decide
  unfold overallSpiderData
  rw [hscope]
  simp only [List.map_cons, List.map_nil]
  have hval : metricsCapScore100 capAlloc stRun = 75 / 2 := by
    unfold metricsCapScore100 metricsMax20
    rw [hsum]
    norm_num [capAlloc]
  rw [hval]
  simp [capAlloc]

/-- Claim C8 amended: the V1.3 spiderData emits, per in-scope capability,
the name, the raw total sum20 and fullMark = max20; the overall spider of
the Setup-Assessment-Report variants instead emits the percentage
capScore100 of computeCapMetrics as the plotted value, without a fullMark
field. -/
theorem C8_spider_amended (m : Model) (sel : List String) (st : AnswerStore) :
    (∀ p, p ∈ spiderData m sel st ↔
        ∃ c ∈ inScopeCaps m sel,
          p = { subject := c.name, total := capSum20 c st, fullMark := capMax20 c })
    ∧ (∀ p, p ∈ overallSpiderData m sel st ↔
        ∃ c ∈ inScopeCaps m sel,
          p = { capability := c.name, value := metricsCapScore100 c st })
    ∧ (∀ c, c ∈ inScopeCaps m sel → c.questions.length ≠ 0 →
        metricsCapScore100 c st
          = capSum20 c st / ((20 : ℚ) * (c.questions.length : ℚ)) * 100) := by
  refine ⟨?_, ?_, ?_⟩
  · intro p
    constructor
    · intro hp
      rcases List.mem_map.mp hp with ⟨c, hc, rfl⟩
      exact ⟨c, hc, rfl⟩
    · rintro ⟨c, hc, rfl⟩
      exact List.mem_map_of_mem _ hc
  · intro p
    constructor
    · intro hp
      rcases List.mem_map.mp hp with ⟨c, hc, rfl⟩
      exact ⟨c, hc, rfl⟩
    · rintro ⟨c, hc, rfl⟩
      exact List.mem_map_of_mem _ hc
  · intro c _ hlen
    unfold metricsCapScore100 metricsMax20
    rw [if_neg]
    intro hc
    have h20 : (c.questions.length : ℚ) = 0 := by
      have h20' : (20 : ℚ) ≠ 0 := by norm_num
      exact (mul_eq_zero.mp hc).resolve_left h20'
    exact hlen (Nat.cast_eq_zero.mp h20)

/-- Witness for C8 amended at a concrete input: the V1.3 spider point for
Allocation carries the raw total 15 and fullMark 40, while the overall
spider of the other variants carries the percentage formula. -/
theorem C8_spider_amended_witness :
    ({ subject := "Allocation", total := (15 : ℚ), fullMark := 40 } : SpiderPoint)
        ∈ spiderData mAlloc [] stRun
    ∧ metricsCapScore100 capAlloc stRun
        = capSum20 capAlloc stRun / ((20 : ℚ) * (capAlloc.questions.length : ℚ)) * 100 := by
  have h := C8_spider_amended mAlloc [] stRun
  constructor
  · refine (h.1 _).mpr ⟨capAlloc, by decide, ?_⟩
    have hsum : capSum20 capAlloc stRun = 15 := by
      simp [capSum20, sumFrom, qContribution, qWeight, alookup,
        capAlloc, qAlloc1, qAlloc2, stRun]
    have hmax : capMax20 capAlloc = 40 := by
      norm_num [capMax20, capAlloc]
    rw [hsum, hmax]
    rfl
  · exact h.2.2 capAlloc (by decide) (by decide)

/-- Parsed JSON values, for the model-import validation. -/
inductive Json
  | jnull
  | jbool (b : Bool)
  | jnum (q : ℚ)
  | jstr (s : String)
  | jarr (xs : List Json)
  | jobj (fields : List (String × Json))

/-- JavaScript truthiness of a parsed JSON value (NaN does not arise from
JSON.parse; arrays and objects are always truthy). -/
def truthy : Json → Bool
  | Json.jnull => false
  | Json.jbool b => b
  | Json.jnum q => decide (q ≠ 0)
  | Json.jstr s => decide (s ≠ "")
  | Json.jarr _ => true
  | Json.jobj _ => true

/-- Property access obj?.k: a field of an object, none on every other value
(and none for a missing field). -/
def getField (j : Json) (k : String) : Option Json :=
  match j with
  | Json.jobj fields => alookup k fields
  | _ => none

/-- Array.isArray of an optional value. -/
def isArrayJson : Option Json → Bool
  | some (Json.jarr _) => true
  | _ => false

/-- importModel accept test of the V1.3 variants: !obj?.capabilities — the
value is accepted whenever its capabilities field is truthy, with no array
check. -/
def acceptModelV13 (j : Json) : Bool :=
  match getField j "capabilities" with
  | some v => truthy v
  | none => false

/-- importModel accept test of the Setup-Assessment-Report variants:
!data || !Array.isArray(data.capabilities). -/
def acceptModelSAR (j : Json) : Bool :=
  truthy j && isArrayJson (getField j "capabilities")

/-- The session state touched by importModel: the loaded model, the
selection (raw key values of the capabilities) and the Answer Store. -/
structure ImportSession where
  model : Option Json
  selectedCapKeys : List Json
  answers : AnswerStore

/-- A capability element's key value, c.key in the V1.3 importModel (a
missing key, JavaScript undefined, is modelled as null). -/
def keyOfV13 (x : Json) : Json :=
  match getField x "key" with
  | some v => v
  | none => Json.jnull

/-- A capability element's key value with the c.key || "" coercion of the
Setup-Assessment-Report importModel. -/
def keyOfSAR (x : Json) : Json :=
  if truthy (keyOfV13 x) then keyOfV13 x else Json.jstr ""

/-- State transition of the V1.3 importModel. When the truthiness check
passes but capabilities is not an array, setModel(obj) has already run when
obj.capabilities.map throws; the TypeError is caught by the surrounding try
of importJSONFile, so the model is replaced while selection and answers
keep their prior values. -/
def importModelStepV13 (s : ImportSession) (j : Json) : ImportSession :=
  if acceptModelV13 j then
    match getField j "capabilities" with
    | some (Json.jarr xs) =>
      { model := some j, selectedCapKeys := xs.map keyOfV13, answers := s.answers }
    | _ =>
      { model := some j, selectedCapKeys := s.selectedCapKeys, answers := s.answers }
  else s

/-- State transition of the Setup-Assessment-Report importModel: validation
throws before any state update, so a rejected value leaves the session
unchanged; an accepted one replaces model and selection and clears the
answers. -/
def importModelStepSAR (s : ImportSession) (j : Json) : ImportSession :=
  if acceptModelSAR j then
    match getField j "capabilities" with
    | some (Json.jarr xs) =>
      { model := some j, selectedCapKeys := xs.map keyOfSAR, answers := fun _ _ => none }
    | _ => s
  else s

/-- Concrete fixture: a parsed value whose capabilities field is the number
5 — truthy, but not an array. -/
def badModelJson : Json := Json.jobj [("capabilities", Json.jnum 5)]

/-- Concrete fixture: a session with a previously loaded model, a nonempty
selection and no answers. -/
def priorSession : ImportSession :=
  { model := some (Json.jobj [("capabilities", Json.jarr [])])
    selectedCapKeys := [Json.jstr "A"]
    answers := fun _ _ => none }

/-- Claim C5, evaluated at the failing input: the V1.3 importModel accepts a
value whose capabilities field is a truthy non-array (its own alert text
says a capabilities array is required), replaces the model and leaves the
old selection in place — a partial state change; the
Setup-Assessment-Report variant rejects the same value and leaves the
session fully unchanged. -/
theorem C5_invalid_model_code_bug :
    acceptModelV13 badModelJson = true
    ∧ acceptModelSAR badModelJson = false
    ∧ (importModelStepV13 priorSession badModelJson).model = some badModelJson
    ∧ (importModelStepV13 priorSession badModelJson).selectedCapKeys
        = priorSession.selectedCapKeys
    ∧ importModelStepSAR priorSession badModelJson = priorSession :=
  ⟨rfl, rfl, rfl, rfl, rfl⟩

/-- Truthiness filter the source applies to grade strings: a missing or
empty (falsy) grade becomes null. This is ansMap[q.id] || null on export
and the found.chosenLevel guard on import. -/
def levelFilter : Option String → Option String
  | some g => if g = "" then none else some g
  | none => none

/-- One item of the by-text answers export: the question text, its lens and
the chosen grade (the display-text field answerText is not used by import
and is omitted). -/
structure ExportItem where
  question : String
  lens : Option String
  chosenLevel : Option String
deriving DecidableEq

/-- The export item of one question. -/
def mkExportItem (q : Question) (ans : Option String) : ExportItem :=
  { question := q.text, lens := q.lens, chosenLevel := levelFilter ans }

/-- The items list of one capability in buildAnswersJSON, walking the
questions from index n. -/
def exportItemsFrom (k : String) (st : AnswerStore) : List Question → ℕ → List ExportItem
  | [], _ => []
  | q :: qs, n => mkExportItem q (st k n) :: exportItemsFrom k st qs (n + 1)

/-- The answers object of buildAnswersJSON: one entry per in-scope
capability, keyed by the capability key (the per-capability name field is
not used by import and is omitted). -/
def buildAnswersExport (m : Model) (sel : List String) (st : AnswerStore) :
    List (String × List ExportItem) :=
  (inScopeCaps m sel).map (fun c => (c.key, exportItemsFrom c.key st c.questions 0))

/-- The Answer Store produced by importAnswers from a by-text payload
against model m: setAnswersByCap(merged) wholesale-replaces the store;
merged has exactly the payload's capability keys; for a capability key also
present in the model, each current question receives the chosen grade of
the first payload item whose question text equals its own text, when that
grade is truthy. -/
def importAnswersStore (m : Model) (p : List (String × List ExportItem)) : AnswerStore :=
  fun k n =>
    match alookup k p with
    | none => none
    | some items =>
      match m.capabilities.find? (fun c => decide (c.key = k)) with
      | none => none
      | some cap =>
        match cap.questions.get? n with
        | none => none
        | some q =>
          match items.find? (fun it => decide (it.question = q.text)) with
          | none => none
          | some it => levelFilter it.chosenLevel

lemma alookup_map_eq {β : Type} (f : Capability → β) :
    ∀ (l : List Capability), (l.map (fun c => c.key)).Nodup →
      ∀ cap, cap ∈ l → alookup cap.key (l.map (fun c => (c.key, f c))) = some (f cap) := by
  intro l
  induction l with
  | nil => intro _ cap hc; cases hc
  | cons c rest ih =>
    intro hnd cap hc
    simp only [List.map_cons, List.nodup_cons] at hnd
    rcases List.mem_cons.mp hc with rfl | hmem
    · simp [alookup]
    · have hne : cap.key ≠ c.key := by
        intro he
        have hmm : cap.key ∈ rest.map (fun c => c.key) := List.mem_map_of_mem _ hmem
        rw [he] at hmm
        exact hnd.1 hmm
      simp only [List.map_cons, alookup]
      rw [if_neg hne]
      exact ih hnd.2 cap hmem

lemma alookup_map_mem {β : Type} (f : Capability → β) :
    ∀ (l : List Capability) (k : String) (v : β),
      alookup k (l.map (fun c => (c.key, f c))) = some v →
      ∃ cap, cap ∈ l ∧ cap.key = k ∧ v = f cap := by
  intro l
  induction l with
  | nil => intro k v h; simp [alookup] at h
  | cons c rest ih =>
    intro k v h
    simp only [List.map_cons, alookup] at h
    by_cases he : k = c.key
    · rw [if_pos he] at h
      exact ⟨c, List.mem_cons_self c rest, he.symm, (Option.some.inj h).symm⟩
    · rw [if_neg he] at h
      rcases ih k v h with ⟨cap, hm, hk, hv⟩
      exact ⟨cap, List.mem_cons_of_mem _ hm, hk, hv⟩

lemma alookup_map_isSome {β : Type} (f : Capability → β) :
    ∀ (l : List Capability) (k : String),
      (alookup k (l.map (fun c => (c.key, f c)))).isSome = true
        ↔ ∃ cap ∈ l, cap.key = k := by
  intro l
  induction l with
  | nil => intro k; simp [alookup]
  | cons c rest ih =>
    intro k
    simp only [List.map_cons, alookup]
    by_cases he : k = c.key
    · rw [if_pos he]
      constructor
      · intro _
        exact ⟨c, List.mem_cons_self c rest, he.symm⟩
      · intro _
        rfl
    · rw [if_neg he]
      rw [ih k]
      constructor
      · rintro ⟨cap, hm, hk⟩
        exact ⟨cap, List.mem_cons_of_mem _ hm, hk⟩
      · rintro ⟨cap, hm, hk⟩
        rcases List.mem_cons.mp hm with rfl | hm'
        · exact absurd hk.symm he
        · exact ⟨cap, hm', hk⟩

lemma find?_key_eq :
    ∀ (l : List Capability), (l.map (fun c => c.key)).Nodup →
      ∀ cap, cap ∈ l → l.find? (fun c => decide (c.key = cap.key)) = some cap := by
  intro l
  induction l with
  | nil => intro _ cap hc; cases hc
  | cons c rest ih =>
    intro hnd cap hc
    simp only [List.map_cons, List.nodup_cons] at hnd
    rcases List.mem_cons.mp hc with rfl | hmem
    · rw [List.find?_cons_of_pos]
      simp
    · have hne : c.key ≠ cap.key := by
        intro he
        have hmm : cap.key ∈ rest.map (fun c => c.key) := List.mem_map_of_mem _ hmem
        rw [← he] at hmm
        exact hnd.1 hmm
      rw [List.find?_cons_of_neg]
      · exact ih hnd.2 cap hmem
      · simp [hne]

lemma key_inj_of_nodup :
    ∀ (l : List Capability), (l.map (fun c => c.key)).Nodup →
      ∀ a, a ∈ l → ∀ b, b ∈ l → a.key = b.key → a = b := by
  intro l
  induction l with
  | nil => intro _ a ha; cases ha
  | cons c rest ih =>
    intro hnd a ha b hb he
    simp only [List.map_cons, List.nodup_cons] at hnd
    rcases List.mem_cons.mp ha with rfl | ha' <;> rcases List.mem_cons.mp hb with rfl | hb'
    · rfl
    · exfalso
      apply hnd.1
      rw [he]
      exact List.mem_map_of_mem _ hb'
    · exfalso
      apply hnd.1
      rw [← he]
      exact List.mem_map_of_mem _ ha'
    · exact ih hnd.2 a ha' b hb' he

lemma exportItems_find?_eq (k : String) (st : AnswerStore) :
    ∀ (qs : List Question) (i n : ℕ) (q : Question),
      (qs.map (fun q => q.text)).Nodup → qs.get? n = some q →
      (exportItemsFrom k st qs i).find? (fun it => decide (it.question = q.text))
        = some (mkExportItem q (st k (i + n))) := by
  intro qs
  induction qs with
  | nil =>
    intro i n q _ hq
    simp [List.get?] at hq
  | cons q0 rest ih =>
    intro i n q hnd hq
    simp only [List.map_cons, List.nodup_cons] at hnd
    cases n with
    | zero =>
      rw [List.get?_cons_zero] at hq
      have hq0 : q0 = q := Option.some.inj hq
      subst hq0
      rw [show exportItemsFrom k st (q0 :: rest) i
            = mkExportItem q0 (st k i) :: exportItemsFrom k st rest (i + 1) from rfl]
      rw [List.find?_cons_of_pos]
      · rw [Nat.add_zero]
      · simp [mkExportItem]
    | succ n' =>
      rw [List.get?_cons_succ] at hq
      have hmem : q ∈ rest := List.get?_mem hq
      have hne : q0.text ≠ q.text := by
        intro he
        have hmm : q.text ∈ rest.map (fun q => q.text) := List.mem_map_of_mem _ hmem
        rw [← he] at hmm
        exact hnd.1 hmm
      rw [show exportItemsFrom k st (q0 :: rest) i
            = mkExportItem q0 (st k i) :: exportItemsFrom k st rest (i + 1) from rfl]
      rw [List.find?_cons_of_neg]
      · rw [show i + (n' + 1) = (i + 1) + n' from by omega]
        exact ih (i + 1) n' q hnd.2 hq
      · simp [mkExportItem, hne]

lemma exportItems_mem (k : String) (st : AnswerStore) :
    ∀ (qs : List Question) (i : ℕ) (it : ExportItem),
      it ∈ exportItemsFrom k st qs i →
      ∃ j q, qs.get? j = some q ∧ it = mkExportItem q (st k (i + j)) := by
  intro qs
  induction qs with
  | nil =>
    intro i it hit
    cases hit
  | cons q0 rest ih =>
    intro i it hit
    rcases List.mem_cons.mp hit with rfl | hmem
    · refine ⟨0, q0, rfl, ?_⟩
      rw [Nat.add_zero]
    · rcases ih (i + 1) it hmem with ⟨j, q, hq, he⟩
      refine ⟨j + 1, q, ?_, ?_⟩
      · rw [List.get?_cons_succ]
        exact hq
      · rw [show i + (j + 1) = (i + 1) + j from by omega]
        exact he

lemma text_index_unique :
    ∀ (qs : List Question), (qs.map (fun q => q.text)).Nodup →
      ∀ n j q q', qs.get? n = some q → qs.get? j = some q' → q.text = q'.text → n = j := by
  intro qs
  induction qs with
  | nil =>
    intro _ n j q q' hn
    simp [List.get?] at hn
  | cons q0 rest ih =>
    intro hnd n j q q' hn hj he
    simp only [List.map_cons, List.nodup_cons] at hnd
    cases n with
    | zero =>
      cases j with
      | zero => rfl
      | succ j' =>
        exfalso
        rw [List.get?_cons_zero] at hn
        rw [List.get?_cons_succ] at hj
        have hq0 : q0 = q := Option.some.inj hn
        have hmem : q' ∈ rest := List.get?_mem hj
        apply hnd.1
        have hmm : q'.text ∈ rest.map (fun q => q.text) := List.mem_map_of_mem _ hmem
        rw [← he, ← hq0] at hmm
        exact hmm
    | succ n' =>
      cases j with
      | zero =>
        exfalso
        rw [List.get?_cons_zero] at hj
        rw [List.get?_cons_succ] at hn
        have hq0 : q0 = q' := Option.some.inj hj
        have hmem : q ∈ rest := List.get?_mem hn
        apply hnd.1
        have hmm : q.text ∈ rest.map (fun q => q.text) := List.mem_map_of_mem _ hmem
        rw [he, ← hq0] at hmm
        exact hmm
      | succ j' =>
        rw [List.get?_cons_succ] at hn hj
        have := ih hnd.2 n' j' q q' hn hj he
        omega

/-- Concrete fixture: an unscored question named qa. -/
def qa : Question := { text := "qa", lens := none, options := [], scores := [] }

/-- Concrete fixture: an unscored question named qb. -/
def qb : Question := { text := "qb", lens := none, options := [], scores := [] }

/-- Concrete fixture: capability A with the single question qa. -/
def capA : Capability := { key := "A", name := "A", questions := [qa] }

/-- Concrete fixture: capability B with the single question qb. -/
def capB : Capability := { key := "B", name := "B", questions := [qb] }

/-- Concrete fixture: a model with capabilities A and B. -/
def mAB : Model := { capabilities := [capA, capB] }

/-- Concrete fixture: an Answer Store answering only capability B,
question 0, with Run. -/
def stB : AnswerStore := fun k n =>
  if k = "B" ∧ n = 0 then some "Run" else none

/-- Counterexample to claim C6 as stated: with capability B answered but
only capability A selected, exporting and re-importing drops B's answer
(export omits out-of-scope capabilities and import wholesale-replaces the
store), so the round trip does not reproduce the Answer Store. -/
theorem C6_roundtrip_counterexample :
    stB "B" 0 = some "Run"
    ∧ importAnswersStore mAB (buildAnswersExport mAB ["A"] stB) "B" 0 = none
    ∧ importAnswersStore mAB (buildAnswersExport mAB ["A"] stB) ≠ stB := by
  refine ⟨rfl, rfl, ?_⟩
  intro h
  have h0 := congrFun (congrFun h "B") 0
  rw [show stB "B" 0 = some "Run" from rfl] at h0
  rw [show importAnswersStore mAB (buildAnswersExport mAB ["A"] stB) "B" 0 = none
      from rfl] at h0
  exact Option.noConfusion h0

/-- Claim C6 amended: export-then-import reproduces the Answer Store
provided the model's capability keys are unique, question texts are unique
within each in-scope capability, and every stored answer has a nonempty
grade and sits at a valid question index of an in-scope capability.
Answers of capabilities outside the selection scope are dropped by the
round trip, as are answers at stale indices, so those hypotheses are
necessary. -/
theorem C6_roundtrip_amended (m : Model) (sel : List String) (st : AnswerStore)
    (hkeys : (m.capabilities.map (fun c => c.key)).Nodup)
    (htexts : ∀ cap ∈ inScopeCaps m sel, (cap.questions.map (fun q => q.text)).Nodup)
    (hscope : ∀ k n g, st k n = some g →
      ∃ cap ∈ inScopeCaps m sel, cap.key = k ∧ n < cap.questions.length)
    (hgrade : ∀ k n g, st k n = some g → g ≠ "") :
    importAnswersStore m (buildAnswersExport m sel st) = st := by
  have hScopeKeys : ((inScopeCaps m sel).map (fun c => c.key)).Nodup := by
    have hsub : List.Sublist (inScopeCaps m sel) m.capabilities := List.filter_sublist _
    have hsubm : List.Sublist ((inScopeCaps m sel).map (fun c => c.key))
        (m.capabilities.map (fun c => c.key)) := hsub.map (fun c => c.key)
    exact List.Nodup.sublist hsubm hkeys
  funext k n
  cases hst : st k n with
  | some g =>
    rcases hscope k n g hst with ⟨cap, hcapmem, hkey, hlt⟩
    have hcapm : cap ∈ m.capabilities := List.mem_of_mem_filter hcapmem
    have hlook : alookup k (buildAnswersExport m sel st)
        = some (exportItemsFrom cap.key st cap.questions 0) := by
      have h := alookup_map_eq (fun c => exportItemsFrom c.key st c.questions 0)
        (inScopeCaps m sel) hScopeKeys cap hcapmem
      rw [hkey] at h
      exact h
    have hfind : m.capabilities.find? (fun c => decide (c.key = k)) = some cap := by
      have h := find?_key_eq m.capabilities hkeys cap hcapm
      rw [hkey] at h
      exact h
    obtain ⟨q, hq⟩ : ∃ q, cap.questions.get? n = some q := by
      cases hg : cap.questions.get? n with
      | none =>
        exfalso
        rw [List.get?_eq_none] at hg
        omega
      | some q => exact ⟨q, rfl⟩
    have hfi := exportItems_find?_eq cap.key st cap.questions 0 n q
      (htexts cap hcapmem) hq
    rw [Nat.zero_add] at hfi
    simp only [importAnswersStore, hlook, hfind, hq, hfi]
    simp only [mkExportItem]
    rw [hkey, hst]
    have hg' : g ≠ "" := hgrade k n g hst
    simp [levelFilter, hg']
  | none =>
    cases hlk : alookup k (buildAnswersExport m sel st) with
    | none => simp only [importAnswersStore, hlk]
    | some items =>
      rcases alookup_map_mem (fun c => exportItemsFrom c.key st c.questions 0)
          (inScopeCaps m sel) k items hlk with ⟨capE, hmemE, hkeyE, hitems⟩
      have hcapmE : capE ∈ m.capabilities := List.mem_of_mem_filter hmemE
      have hfind : m.capabilities.find? (fun c => decide (c.key = k)) = some capE := by
        have h := find?_key_eq m.capabilities hkeys capE hcapmE
        rw [hkeyE] at h
        exact h
      cases hq : capE.questions.get? n with
      | none => simp only [importAnswersStore, hlk, hfind, hq]
      | some q =>
        cases hfi : items.find? (fun it => decide (it.question = q.text)) with
        | none => simp only [importAnswersStore, hlk, hfind, hq, hfi]
        | some it =>
          have hmemIt : it ∈ items := List.mem_of_find?_eq_some hfi
          have hpred := List.find?_some hfi
          have hqt : it.question = q.text := of_decide_eq_true hpred
          rw [hitems] at hmemIt
          rcases exportItems_mem capE.key st capE.questions 0 it hmemIt
            with ⟨j, q', hq', he⟩
          have htxt : q'.text = q.text := by
            rw [← hqt, he]
            rfl
          have hjn : j = n := text_index_unique capE.questions (htexts capE hmemE)
            j n q' q hq' hq htxt
          simp only [importAnswersStore, hlk, hfind, hq, hfi]
          rw [he]
          simp only [mkExportItem]
          rw [Nat.zero_add, hjn, hkeyE, hst]
          rfl

/-- Witness for C6 amended at a concrete input: the Allocation model with
one answered question round-trips to the identical store. -/
theorem C6_roundtrip_amended_witness :
    importAnswersStore mAlloc (buildAnswersExport mAlloc [] stRun) = stRun := by
  apply C6_roundtrip_amended
  · decide
  · decide
  · intro k n g hst
    unfold stRun at hst
    by_cases hc : k = "allocation" ∧ n = 0
    · refine ⟨capAlloc, by decide, ?_, ?_⟩
      · rw [hc.1]
        rfl
      · rw [hc.2]
        decide
    · rw [if_neg hc] at hst
      exact Option.noConfusion hst
  · intro k n g hst
    unfold stRun at hst
    by_cases hc : k = "allocation" ∧ n = 0
    · rw [if_pos hc] at hst
      have : g = "Run" := (Option.some.inj hst).symm
      rw [this]
      decide
    · rw [if_neg hc] at hst
      exact Option.noConfusion hst

/-- Claim C7: importing a by-text payload (exported from model m1) against
an edited model m2, for a capability key present in both: a current question
whose text matches no old question ends with no answer, silently; a current
question whose text equals an old question's text receives the old
question's stored grade at its new index. -/
theorem C7_bytext_merge (m1 m2 : Model) (sel : List String) (st : AnswerStore)
    (k : String) (cap1 cap2 : Capability) (n : ℕ) (q : Question)
    (h1keys : ((inScopeCaps m1 sel).map (fun c => c.key)).Nodup)
    (hmem1 : cap1 ∈ inScopeCaps m1 sel) (hk1 : cap1.key = k)
    (h2keys : (m2.capabilities.map (fun c => c.key)).Nodup)
    (hmem2 : cap2 ∈ m2.capabilities) (hk2 : cap2.key = k)
    (hq : cap2.questions.get? n = some q) :
    ((∀ q' ∈ cap1.questions, q'.text ≠ q.text) →
        importAnswersStore m2 (buildAnswersExport m1 sel st) k n = none)
    ∧ (∀ j q1 g, (cap1.questions.map (fun q => q.text)).Nodup →
        cap1.questions.get? j = some q1 → q1.text = q.text →
        st k j = some g → g ≠ "" →
        importAnswersStore m2 (buildAnswersExport m1 sel st) k n = some g) := by
  have hlook : alookup k (buildAnswersExport m1 sel st)
      = some (exportItemsFrom cap1.key st cap1.questions 0) := by
    have h := alookup_map_eq (fun c => exportItemsFrom c.key st c.questions 0)
      (inScopeCaps m1 sel) h1keys cap1 hmem1
    rw [hk1] at h
    exact h
  have hfind : m2.capabilities.find? (fun c => decide (c.key = k)) = some cap2 := by
    have h := find?_key_eq m2.capabilities h2keys cap2 hmem2
    rw [hk2] at h
    exact h
  constructor
  · intro hnone
    have hfi : (exportItemsFrom cap1.key st cap1.questions 0).find?
        (fun it => decide (it.question = q.text)) = none := by
      rw [List.find?_eq_none]
      intro it hit
      rcases exportItems_mem cap1.key st cap1.questions 0 it hit with ⟨j, q', hq', he⟩
      have hmem : q' ∈ cap1.questions := List.get?_mem hq'
      simp only [he, mkExportItem, decide_eq_true_eq]
      exact hnone q' hmem
    simp only [importAnswersStore, hlook, hfind, hq, hfi]
  · intro j q1 g hnd hq1 htxt hst hgne
    have hfi := exportItems_find?_eq cap1.key st cap1.questions 0 j q1 hnd hq1
    rw [Nat.zero_add, htxt] at hfi
    simp only [importAnswersStore, hlook, hfind, hq, hfi]
    simp only [mkExportItem]
    rw [hk1, hst]
    simp [levelFilter, hgne]

/-- Concrete fixture: an unscored question with text alpha. -/
def qAlpha : Question := { text := "alpha", lens := none, options := [], scores := [] }

/-- Concrete fixture: an unscored question with text beta. -/
def qBeta : Question := { text := "beta", lens := none, options := [], scores := [] }

/-- Concrete fixture: an unscored question with text gamma. -/
def qGamma : Question := { text := "gamma", lens := none, options := [], scores := [] }

/-- Concrete fixture: the old capability C with questions alpha, beta. -/
def capOld : Capability := { key := "C", name := "C", questions := [qAlpha, qBeta] }

/-- Concrete fixture: the edited capability C: beta was replaced by gamma
and alpha moved from index 0 to index 1. -/
def capNew : Capability := { key := "C", name := "C", questions := [qGamma, qAlpha] }

/-- Concrete fixture: the old model. -/
def mOld : Model := { capabilities := [capOld] }

/-- Concrete fixture: the edited model. -/
def mNew : Model := { capabilities := [capNew] }

/-- Concrete fixture: the old store answering alpha (old index 0) with
Run. -/
def stOld : AnswerStore := fun k n =>
  if k = "C" ∧ n = 0 then some "Run" else none

/-- Witness for C7 at a concrete input: after the edit, the new question
gamma at index 0 has no answer, and the unchanged question alpha receives
its prior grade Run at its new index 1. -/
theorem C7_bytext_merge_witness :
    importAnswersStore mNew (buildAnswersExport mOld [] stOld) "C" 0 = none
    ∧ importAnswersStore mNew (buildAnswersExport mOld [] stOld) "C" 1 = some "Run" := by
  constructor
  · exact (C7_bytext_merge mOld mNew [] stOld "C" capOld capNew 0 qGamma
      (by decide) (by decide) rfl (by decide) (by decide) rfl rfl).1 (by decide)
  · exact (C7_bytext_merge mOld mNew [] stOld "C" capOld capNew 1 qAlpha
      (by decide) (by decide) rfl (by decide) (by decide) rfl rfl).2
      0 qAlpha "Run" (by decide) rfl rfl rfl (by decide)

/-- Claim C10: the by-text export's answers object has an entry for a
capability key exactly when that key belongs to an in-scope capability, so
grades stored for capabilities outside the selection scope are omitted from
the payload. -/
theorem C10_export_scope_only (m : Model) (sel : List String) (st : AnswerStore)
    (k : String) :
    (alookup k (buildAnswersExport m sel st)).isSome = true
      ↔ ∃ cap ∈ inScopeCaps m sel, cap.key = k :=
  alookup_map_isSome (fun c => exportItemsFrom c.key st c.questions 0)
    (inScopeCaps m sel) k

/-- Witness for C10 at a concrete input: with only capability A selected,
the payload has an entry for A and none for B although B has a stored
grade. -/
theorem C10_export_scope_only_witness :
    (alookup "A" (buildAnswersExport mAB ["A"] stB)).isSome = true
    ∧ (alookup "B" (buildAnswersExport mAB ["A"] stB)).isSome = false
    ∧ stB "B" 0 = some "Run" := by
  refine ⟨(C10_export_scope_only mAB ["A"] stB "A").mpr ⟨capA, by decide, rfl⟩, ?_, rfl⟩
  have hn : ¬ ∃ cap ∈ inScopeCaps mAB ["A"], cap.key = "B" := by decide
  cases his : (alookup "B" (buildAnswersExport mAB ["A"] stB)).isSome with
  | false => rfl
  | true => exact absurd ((C10_export_scope_only mAB ["A"] stB "B").mp his) hn

end FinOps
